import Mathlib

/-!
Shallow embedding of the packing-list core of `src/src/travel-packing-app.tsx`:
the trip-duration calculation (`getLocalDate` + day count), the weather
analyzer (`analyzeWeather`), the item rule engine inside
`generatePackingList` (baseline essentials, clothing-by-weather blocks,
per-activity blocks, weather and duration extras) and the final merge step
(a JS `Map` keyed on the string `name + "-" + category`, keeping the maximum
quantity per key and insertion order).

Modelling conventions:
* JS numbers that hold temperatures and averages are modelled as `ℚ`
  (all arithmetic in the relevant ranges is exact; `Math.ceil` is `Int.ceil`).
* Day counts and quantities are `ℤ` (JS integers in this program).
* A calendar date is its epoch day number; `new Date("YYYY-MM-DD")` is UTC
  midnight of that day, and the environment's `getTimezoneOffset()` is
  modelled as a constant offset `ofs` in minutes (a fixed-offset timezone).
* `String.prototype.includes` is substring containment of the character
  lists; `toLowerCase` maps `Char.toLower` over the characters.
-/

structure WeatherDay where
  date : String
  high : ℚ
  low : ℚ
  conditions : String
deriving DecidableEq, Repr

structure PackingItem where
  name : String
  category : String
  quantity : ℤ
deriving DecidableEq, Repr

structure WeatherSignals where
  avgHigh : ℚ
  avgLow : ℚ
  hasRain : Bool
  tempVariation : ℚ
  isHot : Bool
  isMild : Bool
  isCool : Bool
  isCold : Bool
  needsLayering : Bool
deriving DecidableEq, Repr

/-- `s.includes(pat)`: `pat` occurs as a contiguous substring of `s`. -/
def jsIncludes (s pat : String) : Bool :=
  decide (pat.toList <:+: s.toList)

/-- `s.toLowerCase()` (ASCII case mapping suffices for this program),
as a map over the character list. -/
def jsToLower (s : String) : String :=
  String.mk (s.data.map Char.toLower)

/-- `Math.ceil` on an exact rational reading of the JS arithmetic. -/
def mathCeil (x : ℚ) : ℤ :=
  Int.ceil x

/-- `Math.max(...xs)` for a nonempty list (the program only applies it to
nonempty forecasts; the empty case is given an arbitrary value `0`). -/
def listMax : List ℚ → ℚ
  | [] => 0
  | x :: xs => xs.foldl max x

/-- `Math.min(...xs)` for a nonempty list (empty case arbitrary). -/
def listMin : List ℚ → ℚ
  | [] => 0
  | x :: xs => xs.foldl min x

/-- `getLocalDate(dateString).getTime()`: UTC midnight of the epoch day
`d`, in ms, shifted by the environment's timezone offset `ofs` (minutes). -/
def getLocalDate (ofs : ℤ) (d : ℤ) : ℤ :=
  d * 86400000 + ofs * 60000

/-- The day count computed at the top of `generatePackingList`:
`Math.floor((end - start) / 86400000) + 1` on the two local dates. -/
def tripDuration (ofs : ℤ) (startDay endDay : ℤ) : ℤ :=
  (getLocalDate ofs endDay - getLocalDate ofs startDay).fdiv 86400000 + 1

/-- `analyzeWeather(weatherData)`: averages, rain flag, temperature
variation and the derived boolean bands, exactly as in the source. -/
def analyzeWeather (weatherData : List WeatherDay) : WeatherSignals :=
  let avgHigh : ℚ := (weatherData.foldl (fun sum day => sum + day.high) 0) / weatherData.length
  let avgLow : ℚ := (weatherData.foldl (fun sum day => sum + day.low) 0) / weatherData.length
  let hasRain : Bool := weatherData.any (fun day => jsIncludes day.conditions "Rain")
  let tempVariation : ℚ := listMax (weatherData.map (·.high)) - listMin (weatherData.map (·.low))
  { avgHigh := avgHigh
    avgLow := avgLow
    hasRain := hasRain
    tempVariation := tempVariation
    isHot := avgHigh > 80
    isMild := avgHigh ≥ 60 && avgHigh ≤ 80
    isCool := avgLow < 60 && avgLow ≥ 40
    isCold := avgLow < 40
    needsLayering := tempVariation > 20 }

/-- The baseline essentials pushed first in `generatePackingList`. -/
def essentialItems : List PackingItem :=
  [⟨"Passport/ID", "Documents & Money", 1⟩,
   ⟨"Phone + Charger", "Electronics", 1⟩,
   ⟨"Toiletry Basics", "Toiletries", 1⟩]

/-- The `isCool || needsLayering` block of `addClothingItems`
(`topsPerDay = needsLayering ? 2 : 1`). -/
def coolLayerItems (tripDays : ℤ) (w : WeatherSignals) : List PackingItem :=
  if w.isCool || w.needsLayering then
    let topsPerDay : ℤ := if w.needsLayering then 2 else 1
    [⟨"Long Sleeve Shirts", "Clothing", mathCeil ((tripDays : ℚ) * topsPerDay * (1/2))⟩,
     ⟨"Light Jacket", "Clothing", 1⟩,
     ⟨"Warm Sweater", "Clothing", mathCeil ((tripDays : ℚ) / 3)⟩]
  else []

/-- `addClothingItems()`: the weather-gated clothing blocks, in push order. -/
def addClothingItems (tripDays : ℤ) (w : WeatherSignals) : List PackingItem :=
  [⟨"Underwear", "Clothing", tripDays + 1⟩,
   ⟨"Socks", "Clothing", tripDays + 1⟩]
  ++ (if w.isHot then
        [⟨"Breathable T-shirts", "Clothing", tripDays⟩,
         ⟨"Lightweight Shorts", "Clothing", mathCeil ((tripDays : ℚ) / 2)⟩,
         ⟨"Sun Protection Shirt", "Clothing", 1⟩]
      else [])
  ++ (if w.isMild then
        [⟨"Casual Shirts", "Clothing", mathCeil ((tripDays : ℚ) * (7/10))⟩,
         ⟨"Light Sweater", "Clothing", 1⟩,
         ⟨"Comfortable Pants", "Clothing", mathCeil ((tripDays : ℚ) / 3)⟩]
      else [])
  ++ coolLayerItems tripDays w
  ++ (if w.isCold then
        [⟨"Warm Base Layer Set", "Clothing", 2⟩,
         ⟨"Winter Coat", "Clothing", 1⟩,
         ⟨"Warm Hat", "Accessories", 1⟩,
         ⟨"Gloves", "Accessories", 1⟩,
         ⟨"Scarf", "Accessories", 1⟩,
         ⟨"Thermal Socks", "Clothing", mathCeil ((tripDays : ℚ) / 2)⟩]
      else [])

/-- The body of the `activities.forEach` loop in `addActivityItems()`:
the items one activity string pushes. -/
def emitActivity (tripDays : ℤ) (w : WeatherSignals) (activity : String) : List PackingItem :=
  let lowercaseActivity := jsToLower activity
  (if jsIncludes lowercaseActivity "beach" || jsIncludes lowercaseActivity "swim" then
     let beachDays := mathCeil ((tripDays : ℚ) / 3)
     [⟨"Swimsuit", "Clothing", min 2 beachDays⟩,
      ⟨"Beach Towel", "Accessories", 1⟩,
      ⟨"Waterproof Phone Case", "Accessories", 1⟩,
      ⟨"Beach Bag", "Accessories", 1⟩]
     ++ (if w.isHot then
           [⟨"Extra Sunscreen", "Toiletries", 1⟩,
            ⟨"After-Sun Care", "Toiletries", 1⟩]
         else [])
   else [])
  ++ (if jsIncludes lowercaseActivity "hik" then
        let hikingDays := mathCeil ((tripDays : ℚ) / 3)
        [⟨"Hiking Boots", "Footwear", 1⟩,
         ⟨"Hiking Socks", "Clothing", hikingDays + 1⟩,
         ⟨"Moisture-Wicking Shirts", "Clothing", hikingDays⟩,
         ⟨"Hiking Pants", "Clothing", mathCeil ((hikingDays : ℚ) / 2)⟩,
         ⟨"First Aid Kit", "Safety", 1⟩]
        ++ (if w.hasRain then
              [⟨"Waterproof Jacket", "Clothing", 1⟩,
               ⟨"Quick-Dry Pants", "Clothing", 1⟩]
            else [])
      else [])
  ++ (if jsIncludes lowercaseActivity "business" then
        let businessDays := min tripDays 5
        [⟨"Business Suits", "Business Attire", mathCeil ((businessDays : ℚ) / 2)⟩,
         ⟨"Dress Shirts", "Business Attire", businessDays⟩,
         ⟨"Dress Pants", "Business Attire", mathCeil ((businessDays : ℚ) / 2)⟩,
         ⟨"Dress Shoes", "Footwear", 1⟩,
         ⟨"Professional Accessories", "Business Items", 1⟩]
        ++ (if tripDays > 3 then
              [⟨"Portable Steamer", "Business Items", 1⟩]
            else [])
      else [])
  ++ (if jsIncludes lowercaseActivity "golf" then
        let golfDays := mathCeil ((tripDays : ℚ) / 3)
        [⟨"Golf Polo Shirts", "Athletic Wear", golfDays⟩,
         ⟨"Golf Pants/Shorts", "Athletic Wear", mathCeil ((golfDays : ℚ) / 2)⟩,
         ⟨"Golf Shoes", "Footwear", 1⟩,
         ⟨"Golf Glove", "Equipment", 1⟩]
        ++ (if w.isHot then
              [⟨"Golf Hat/Visor", "Accessories", 1⟩,
               ⟨"Golf Towel", "Equipment", 1⟩]
            else [])
      else [])

/-- The full raw (unmerged) item stream of `generatePackingList`, in push
order: essentials, clothing, per-activity items, rain extras, duration
extras. -/
def generateItems (tripDays : ℤ) (w : WeatherSignals) (activities : List String) : List PackingItem :=
  essentialItems
  ++ addClothingItems tripDays w
  ++ activities.flatMap (emitActivity tripDays w)
  ++ (if w.hasRain then
        [⟨"Umbrella", "Accessories", 1⟩,
         ⟨"Rain Jacket", "Clothing", 1⟩]
      else [])
  ++ (if tripDays > 7 then
        [⟨"Laundry Bag", "Accessories", 1⟩,
         ⟨"Travel Detergent", "Toiletries", 1⟩]
      else [])

/-- The JS `Map` key: `` `${item.name}-${item.category}` ``. -/
def itemKey (it : PackingItem) : String :=
  it.name ++ "-" ++ it.category

/-- One step of the dedup loop: on a key hit the stored entry keeps its
name/category and its quantity becomes the max; otherwise the item is
appended (JS `Map` preserves insertion order). -/
def insertItem (acc : List PackingItem) (it : PackingItem) : List PackingItem :=
  if acc.any (fun j => itemKey j == itemKey it) then
    acc.map (fun j => if itemKey j == itemKey it then
               { j with quantity := max j.quantity it.quantity } else j)
  else acc ++ [it]

/-- The final merge step of `generatePackingList`
(`Array.from(itemMap.values())`). -/
def mergeItems (items : List PackingItem) : List PackingItem :=
  items.foldl insertItem []

/-- The merged list for given weather signals (the part of
`generatePackingList` below the `analyzeWeather` call). -/
def generateMerged (tripDays : ℤ) (w : WeatherSignals) (activities : List String) : List PackingItem :=
  mergeItems (generateItems tripDays w activities)

/-- `generatePackingList` as a function of the trip length, the forecast
and the activity list. -/
def generatePackingList (tripDays : ℤ) (weatherData : List WeatherDay) (activities : List String) : List PackingItem :=
  generateMerged tripDays (analyzeWeather weatherData) activities

/-! ### Merge-step theory -/

/-- Lookup in the accumulator by merge key (the first entry, as a JS `Map`
holds at most one entry per key). -/
def findByKey (acc : List PackingItem) (k : String) : Option PackingItem :=
  acc.find? (fun j => itemKey j == k)

/-- Combining an optional stored entry with a newly seen item: the stored
name/category win, the quantity becomes the max. -/
def bumpQty : Option PackingItem → PackingItem → PackingItem
  | none, it => it
  | some j, it => { j with quantity := max j.quantity it.quantity }

/-- All items of `l` sharing merge key `k`, in order. -/
def keyGroup (l : List PackingItem) (k : String) : List PackingItem :=
  l.filter (fun j => itemKey j == k)

/-- The merged entry a key group produces: first-seen name/category,
maximum quantity. -/
def groupEntry : List PackingItem → Option PackingItem
  | [] => none
  | x :: g => some ⟨x.name, x.category, g.foldl (fun q it => max q it.quantity) x.quantity⟩

/-- No two entries of the list share a merge key. -/
def KeysDistinct (l : List PackingItem) : Prop :=
  l.Pairwise (fun a b => itemKey a ≠ itemKey b)

lemma itemKey_eq_of_name_category {a b : PackingItem}
    (hn : a.name = b.name) (hc : a.category = b.category) : itemKey a = itemKey b := by
  unfold itemKey
  rw [hn, hc]

lemma itemKey_update (it j : PackingItem) :
    itemKey (if itemKey j == itemKey it then
      { j with quantity := max j.quantity it.quantity } else j) = itemKey j := by
  split <;> rfl

lemma findByKey_insertItem (acc : List PackingItem) (it : PackingItem) (k : String) :
    findByKey (insertItem acc it) k =
      if itemKey it = k then some (bumpQty (findByKey acc k) it) else findByKey acc k := by
  unfold insertItem findByKey
  by_cases hp : acc.any (fun j => itemKey j == itemKey it) = true
  · rw [if_pos hp, List.find?_map]
    have hpf : ((fun j => itemKey j == k) ∘ fun j =>
        if itemKey j == itemKey it then { j with quantity := max j.quantity it.quantity } else j)
        = fun j : PackingItem => itemKey j == k := by
      funext j
      simp only [Function.comp_apply, itemKey_update it j]
    rw [hpf]
    by_cases hk : itemKey it = k
    · rw [if_pos hk]
      obtain ⟨j0, hj0, hj0k⟩ := List.any_eq_true.mp hp
      cases hfind : acc.find? (fun j => itemKey j == k) with
      | none =>
        exfalso
        have := List.find?_eq_none.mp hfind j0 hj0
        rw [← hk] at this
        exact this hj0k
      | some j1 =>
        have hkey1 : itemKey j1 = k := by
          have := List.find?_some hfind
          simpa using this
        have hbeq : (itemKey j1 == itemKey it) = true := by
          simp only [beq_iff_eq]
          rw [hkey1, hk]
        show some (if itemKey j1 == itemKey it then
          { j1 with quantity := max j1.quantity it.quantity } else j1) = _
        rw [if_pos hbeq]
        rfl
    · rw [if_neg hk]
      cases hfind : acc.find? (fun j => itemKey j == k) with
      | none => rfl
      | some j1 =>
        have hkey1 : itemKey j1 = k := by
          have := List.find?_some hfind
          simpa using this
        have hne : ¬((itemKey j1 == itemKey it) = true) := by
          simp only [beq_iff_eq]
          intro hcontra
          exact hk (by rw [← hcontra]; exact hkey1)
        show some (if itemKey j1 == itemKey it then
          { j1 with quantity := max j1.quantity it.quantity } else j1) = _
        rw [if_neg hne]
  · rw [if_neg hp, List.find?_append]
    have hall : ∀ j ∈ acc, itemKey j ≠ itemKey it := by
      intro j hj
      have := List.any_eq_false.mp (Bool.eq_false_iff.mpr (fun hc => hp hc)) j hj
      simpa using this
    by_cases hk : itemKey it = k
    · have hnone : acc.find? (fun j => itemKey j == k) = none := by
        apply List.find?_eq_none.mpr
        intro j hj
        simp only [beq_iff_eq]
        rw [← hk]
        exact hall j hj
      rw [hnone, if_pos hk]
      simp [hk, bumpQty]
    · cases hfind : acc.find? (fun j => itemKey j == k) with
      | none =>
        rw [if_neg hk]
        simp [hk]
      | some j1 => simp [hk]

lemma findByKey_foldl (l : List PackingItem) (acc : List PackingItem) (k : String) :
    findByKey (l.foldl insertItem acc) k =
      (keyGroup l k).foldl (fun o it => some (bumpQty o it)) (findByKey acc k) := by
  induction l generalizing acc with
  | nil => rfl
  | cons it rest ih =>
    rw [List.foldl_cons, ih]
    unfold keyGroup
    rw [List.filter_cons]
    by_cases hk : itemKey it = k
    · rw [if_pos (by simpa using hk), List.foldl_cons, findByKey_insertItem, if_pos hk]
    · rw [if_neg (by simpa using hk), findByKey_insertItem, if_neg hk]

lemma foldl_bump_some (g : List PackingItem) (j : PackingItem) :
    g.foldl (fun o it => some (bumpQty o it)) (some j) =
      some ⟨j.name, j.category, g.foldl (fun q it => max q it.quantity) j.quantity⟩ := by
  induction g generalizing j with
  | nil => rfl
  | cons it g ih =>
    rw [List.foldl_cons, List.foldl_cons]
    exact ih ⟨j.name, j.category, max j.quantity it.quantity⟩

lemma findByKey_mergeItems (l : List PackingItem) (k : String) :
    findByKey (mergeItems l) k = groupEntry (keyGroup l k) := by
  unfold mergeItems
  rw [findByKey_foldl]
  cases hg : keyGroup l k with
  | nil => rfl
  | cons x g =>
    show (g.foldl (fun o it => some (bumpQty o it)) (some (bumpQty none x))) = _
    rw [show bumpQty none x = x from rfl, foldl_bump_some]
    rfl

lemma le_foldl_qty (g : List PackingItem) (q : ℤ) :
    q ≤ g.foldl (fun m it => max m it.quantity) q := by
  induction g generalizing q with
  | nil => exact le_refl q
  | cons it g ih => exact le_trans (le_max_left _ _) (ih _)

lemma mem_le_foldl_qty (g : List PackingItem) (i : PackingItem) (hi : i ∈ g) (q : ℤ) :
    i.quantity ≤ g.foldl (fun m it => max m it.quantity) q := by
  induction g generalizing q with
  | nil => cases hi
  | cons it g ih =>
    rcases List.mem_cons.mp hi with rfl | hmem
    · exact le_trans (le_max_right _ _) (le_foldl_qty g _)
    · exact ih hmem _

lemma foldl_qty_attained (g : List PackingItem) (q : ℤ) :
    g.foldl (fun m it => max m it.quantity) q = q
      ∨ ∃ i ∈ g, g.foldl (fun m it => max m it.quantity) q = i.quantity := by
  induction g generalizing q with
  | nil => exact Or.inl rfl
  | cons it g ih =>
    rw [List.foldl_cons]
    rcases ih (max q it.quantity) with heq | ⟨i, hi, heq⟩
    · rcases max_choice q it.quantity with hm | hm
      · exact Or.inl (by rw [heq, hm])
      · exact Or.inr ⟨it, List.mem_cons_self _ _, by rw [heq, hm]⟩
    · exact Or.inr ⟨i, List.mem_cons_of_mem _ hi, heq⟩

lemma keysDistinct_insertItem (acc : List PackingItem) (it : PackingItem)
    (h : KeysDistinct acc) : KeysDistinct (insertItem acc it) := by
  unfold insertItem
  by_cases hp : acc.any (fun j => itemKey j == itemKey it) = true
  · rw [if_pos hp]
    unfold KeysDistinct at h ⊢
    rw [List.pairwise_map]
    apply h.imp
    intro a b hab
    rw [itemKey_update it a, itemKey_update it b]
    exact hab
  · rw [if_neg hp]
    have hall : ∀ j ∈ acc, itemKey j ≠ itemKey it := by
      intro j hj
      have := List.any_eq_false.mp (Bool.eq_false_iff.mpr (fun hc => hp hc)) j hj
      simpa using this
    unfold KeysDistinct
    rw [List.pairwise_append]
    exact ⟨h, List.pairwise_singleton _ _, fun a ha b hb => by
      rw [List.mem_singleton.mp hb]; exact hall a ha⟩

lemma keysDistinct_foldl (l acc : List PackingItem) (h : KeysDistinct acc) :
    KeysDistinct (l.foldl insertItem acc) := by
  induction l generalizing acc with
  | nil => exact h
  | cons it rest ih => exact ih _ (keysDistinct_insertItem acc it h)

lemma keysDistinct_mergeItems (l : List PackingItem) : KeysDistinct (mergeItems l) :=
  keysDistinct_foldl l [] List.Pairwise.nil

lemma findByKey_mem {acc : List PackingItem} {k : String} {j : PackingItem}
    (h : findByKey acc k = some j) : j ∈ acc ∧ itemKey j = k :=
  ⟨List.mem_of_find?_eq_some h, by simpa using List.find?_some h⟩

lemma mem_findByKey : ∀ (acc : List PackingItem), KeysDistinct acc →
    ∀ it ∈ acc, findByKey acc (itemKey it) = some it
  | [], _, it, hit => absurd hit (List.not_mem_nil it)
  | a :: l, hd, it, hit => by
    rcases List.mem_cons.mp hit with rfl | hmem
    · unfold findByKey
      rw [List.find?_cons_of_pos _ (by simp)]
    · have hne : itemKey a ≠ itemKey it :=
        (List.pairwise_cons.mp hd).1 it hmem
      unfold findByKey
      rw [List.find?_cons_of_neg _ (by simpa using hne)]
      exact mem_findByKey l (List.pairwise_cons.mp hd).2 it hmem

lemma keysDistinct_unique {l : List PackingItem} (hd : KeysDistinct l) :
    ∀ x ∈ l, ∀ y ∈ l, itemKey x = itemKey y → x = y := by
  induction l with
  | nil => intro x hx; cases hx
  | cons a t ih =>
    intro x hx y hy hxy
    obtain ⟨hhead, htail⟩ := List.pairwise_cons.mp hd
    rcases List.mem_cons.mp hx with rfl | hxt <;> rcases List.mem_cons.mp hy with rfl | hyt
    · rfl
    · exact absurd hxy (hhead y hyt)
    · exact absurd hxy.symm (hhead x hxt)
    · exact ih htail x hxt y hyt hxy

lemma insertItem_eq_self (acc : List PackingItem) (it j : PackingItem)
    (hd : KeysDistinct acc) (hf : findByKey acc (itemKey it) = some j)
    (hq : it.quantity ≤ j.quantity) : insertItem acc it = acc := by
  obtain ⟨hjm, hjk⟩ := findByKey_mem hf
  unfold insertItem
  rw [if_pos (List.any_eq_true.mpr ⟨j, hjm, by simpa using hjk⟩)]
  have hfx : ∀ x ∈ acc,
      (if itemKey x == itemKey it then
        { x with quantity := max x.quantity it.quantity } else x) = x := by
    intro x hx
    by_cases hxk : (itemKey x == itemKey it) = true
    · have hxj : x = j := keysDistinct_unique hd x hx j hjm
        (by rw [(beq_iff_eq).mp hxk, hjk])
    
      subst hxj
      rw [if_pos hxk, max_eq_left hq]
    · rw [if_neg hxk]
  calc acc.map (fun x => if itemKey x == itemKey it then
        { x with quantity := max x.quantity it.quantity } else x)
      = acc.map id := List.map_congr_left hfx
    _ = acc := List.map_id acc

lemma foldl_insertItem_noop (E acc : List PackingItem) (hd : KeysDistinct acc)
    (h : ∀ i ∈ E, ∃ j, findByKey acc (itemKey i) = some j ∧ i.quantity ≤ j.quantity) :
    E.foldl insertItem acc = acc := by
  induction E with
  | nil => rfl
  | cons i E ih =>
    obtain ⟨j, hf, hq⟩ := h i (List.mem_cons_self _ _)
    rw [List.foldl_cons, insertItem_eq_self acc i j hd hf hq]
    exact ih (fun i' hi' => h i' (List.mem_cons_of_mem _ hi'))

lemma foldl_insertItem_of_distinct :
    ∀ (l acc : List PackingItem), KeysDistinct (acc ++ l) → l.foldl insertItem acc = acc ++ l
  | [], acc, _ => by simp
  | it :: l, acc, h => by
    have hcross : ∀ j ∈ acc, itemKey j ≠ itemKey it := by
      intro j hj
      exact (List.pairwise_append.mp h).2.2 j hj it (List.mem_cons_self _ _)
    have hstep : insertItem acc it = acc ++ [it] := by
      unfold insertItem
      rw [if_neg]
      rw [Bool.not_eq_true, List.any_eq_false]
      intro j hj
      simpa using hcross j hj
    have h2 : KeysDistinct ((acc ++ [it]) ++ l) := by
      unfold KeysDistinct at h ⊢
      rwa [List.append_assoc, List.singleton_append]
    rw [List.foldl_cons, hstep, foldl_insertItem_of_distinct l (acc ++ [it]) h2,
      List.append_assoc, List.singleton_append]

lemma mergeItems_of_keysDistinct (l : List PackingItem) (h : KeysDistinct l) :
    mergeItems l = l := by
  unfold mergeItems
  have := foldl_insertItem_of_distinct l [] (by simpa using h)
  simpa using this

lemma exists_entry_ge (l : List PackingItem) (i : PackingItem) (hi : i ∈ l) :
    ∃ j, findByKey (mergeItems l) (itemKey i) = some j ∧ i.quantity ≤ j.quantity := by
  rw [findByKey_mergeItems]
  have higroup : i ∈ keyGroup l (itemKey i) := List.mem_filter.mpr ⟨hi, by simp⟩
  cases hg : keyGroup l (itemKey i) with
  | nil => rw [hg] at higroup; cases higroup
  | cons x g =>
    rw [hg] at higroup
    refine ⟨_, rfl, ?_⟩
    show i.quantity ≤ g.foldl (fun q it => max q it.quantity) x.quantity
    rcases List.mem_cons.mp higroup with rfl | hmem
    · exact le_foldl_qty g _
    · exact mem_le_foldl_qty g i hmem _

lemma mergeItems_append (x y : List PackingItem) :
    mergeItems (x ++ y) = y.foldl insertItem (mergeItems x) := by
  unfold mergeItems
  rw [List.foldl_append]

lemma mergeItems_absorb_mid (p m s : List PackingItem) (h : ∀ i ∈ m, i ∈ p) :
    mergeItems (p ++ (m ++ s)) = mergeItems (p ++ s) :=
  calc mergeItems (p ++ (m ++ s))
      = s.foldl insertItem (m.foldl insertItem (mergeItems p)) := by
        rw [← List.append_assoc, mergeItems_append, mergeItems_append]
    _ = s.foldl insertItem (mergeItems p) := by
        rw [foldl_insertItem_noop m _ (keysDistinct_mergeItems p)
          (fun i hi => exists_entry_ge p i (h i hi))]
    _ = mergeItems (p ++ s) := (mergeItems_append p s).symm

/-! ### Concrete scenario inputs -/

/-- The 5-day forecast of the beach scenario: every day 85/70 and sunny. -/
def beachForecast : List WeatherDay :=
  [⟨"d1", 85, 70, "Sunny"⟩, ⟨"d2", 85, 70, "Sunny"⟩, ⟨"d3", 85, 70, "Sunny"⟩,
   ⟨"d4", 85, 70, "Sunny"⟩, ⟨"d5", 85, 70, "Sunny"⟩]

/-- A one-day forecast that is hot by day (85) and cold by night (35). -/
def hotColdForecast : List WeatherDay :=
  [⟨"d1", 85, 35, "Sunny"⟩]

/-- A one-day cool, stable forecast (55/45, no rain). -/
def coolForecast : List WeatherDay :=
  [⟨"d1", 55, 45, "Cloudy"⟩]

/-- A one-day rainy forecast. -/
def rainForecast : List WeatherDay :=
  [⟨"d1", 70, 50, "Light Rain"⟩]

/-- Weather signals with every band switched off (used to exercise the
rule engine on inputs where only unconditional blocks fire). -/
def plainSignals : WeatherSignals :=
  ⟨0, 0, false, 0, false, false, false, false, false⟩

lemma analyzeWeather_beachForecast :
    analyzeWeather beachForecast = ⟨85, 70, false, 15, true, false, false, false, false⟩ := by
  unfold analyzeWeather beachForecast
  norm_num [listMax, listMin, jsIncludes]
  decide

lemma analyzeWeather_hotColdForecast :
    analyzeWeather hotColdForecast = ⟨85, 35, false, 50, true, false, false, true, true⟩ := by
  unfold analyzeWeather hotColdForecast
  norm_num [listMax, listMin, jsIncludes]
  decide

lemma mathCeil_five_halves : mathCeil (((5 : ℤ) : ℚ) / 2) = 3 := by
  unfold mathCeil
  rw [Int.ceil_eq_iff]
  norm_num

lemma mathCeil_five_thirds : mathCeil (((5 : ℤ) : ℚ) / 3) = 2 := by
  unfold mathCeil
  rw [Int.ceil_eq_iff]
  norm_num

lemma beach_scenario_eval : generatePackingList 5 beachForecast ["Beach day"] =
    [⟨"Passport/ID", "Documents & Money", 1⟩,
     ⟨"Phone + Charger", "Electronics", 1⟩,
     ⟨"Toiletry Basics", "Toiletries", 1⟩,
     ⟨"Underwear", "Clothing", 6⟩,
     ⟨"Socks", "Clothing", 6⟩,
     ⟨"Breathable T-shirts", "Clothing", 5⟩,
     ⟨"Lightweight Shorts", "Clothing", 3⟩,
     ⟨"Sun Protection Shirt", "Clothing", 1⟩,
     ⟨"Swimsuit", "Clothing", 2⟩,
     ⟨"Beach Towel", "Accessories", 1⟩,
     ⟨"Waterproof Phone Case", "Accessories", 1⟩,
     ⟨"Beach Bag", "Accessories", 1⟩,
     ⟨"Extra Sunscreen", "Toiletries", 1⟩,
     ⟨"After-Sun Care", "Toiletries", 1⟩] := by
  unfold generatePackingList
  rw [analyzeWeather_beachForecast]
  simp only [generateMerged, generateItems, essentialItems, addClothingItems, coolLayerItems,
    List.flatMap_cons, List.flatMap_nil, emitActivity, mathCeil_five_halves, mathCeil_five_thirds]
  decide

/-! ### Bounds for the max/min folds of the analyzer -/

lemma le_foldl_max (l : List ℚ) (q : ℚ) : q ≤ l.foldl max q := by
  induction l generalizing q with
  | nil => exact le_refl q
  | cons x xs ih => exact le_trans (le_max_left _ _) (ih _)

lemma mem_le_foldl_max (l : List ℚ) (x : ℚ) (hx : x ∈ l) (q : ℚ) : x ≤ l.foldl max q := by
  induction l generalizing q with
  | nil => cases hx
  | cons y ys ih =>
    rcases List.mem_cons.mp hx with rfl | hmem
    · exact le_trans (le_max_right _ _) (le_foldl_max ys _)
    · exact ih hmem _

lemma foldl_max_mem (l : List ℚ) (q : ℚ) : l.foldl max q = q ∨ l.foldl max q ∈ l := by
  induction l generalizing q with
  | nil => exact Or.inl rfl
  | cons x xs ih =>
    rw [List.foldl_cons]
    rcases ih (max q x) with heq | hm
    · rcases max_choice q x with hc | hc
      · exact Or.inl (by rw [heq, hc])
      · exact Or.inr (by rw [heq, hc]; exact List.mem_cons_self x xs)
    · exact Or.inr (List.mem_cons_of_mem _ hm)

lemma foldl_min_le (l : List ℚ) (q : ℚ) : l.foldl min q ≤ q := by
  induction l generalizing q with
  | nil => exact le_refl q
  | cons x xs ih => exact le_trans (ih _) (min_le_left _ _)

lemma foldl_min_le_mem (l : List ℚ) (x : ℚ) (hx : x ∈ l) (q : ℚ) : l.foldl min q ≤ x := by
  induction l generalizing q with
  | nil => cases hx
  | cons y ys ih =>
    rcases List.mem_cons.mp hx with rfl | hmem
    · exact le_trans (foldl_min_le ys _) (min_le_right _ _)
    · exact ih hmem _

lemma foldl_min_mem (l : List ℚ) (q : ℚ) : l.foldl min q = q ∨ l.foldl min q ∈ l := by
  induction l generalizing q with
  | nil => exact Or.inl rfl
  | cons x xs ih =>
    rw [List.foldl_cons]
    rcases ih (min q x) with heq | hm
    · rcases min_choice q x with hc | hc
      · exact Or.inl (by rw [heq, hc])
      · exact Or.inr (by rw [heq, hc]; exact List.mem_cons_self x xs)
    · exact Or.inr (List.mem_cons_of_mem _ hm)

lemma listMax_mem (l : List ℚ) (h : l ≠ []) : listMax l ∈ l := by
  cases l with
  | nil => exact absurd rfl h
  | cons x xs =>
    show List.foldl max x xs ∈ x :: xs
    rcases foldl_max_mem xs x with heq | hm
    · rw [heq]; exact List.mem_cons_self x xs
    · exact List.mem_cons_of_mem _ hm

lemma le_listMax (l : List ℚ) (x : ℚ) (hx : x ∈ l) : x ≤ listMax l := by
  cases l with
  | nil => cases hx
  | cons y ys =>
    show x ≤ List.foldl max y ys
    rcases List.mem_cons.mp hx with rfl | hmem
    · exact le_foldl_max ys x
    · exact mem_le_foldl_max ys x hmem y

lemma listMin_mem (l : List ℚ) (h : l ≠ []) : listMin l ∈ l := by
  cases l with
  | nil => exact absurd rfl h
  | cons x xs =>
    show List.foldl min x xs ∈ x :: xs
    rcases foldl_min_mem xs x with heq | hm
    · rw [heq]; exact List.mem_cons_self x xs
    · exact List.mem_cons_of_mem _ hm

lemma listMin_le (l : List ℚ) (x : ℚ) (hx : x ∈ l) : listMin l ≤ x := by
  cases l with
  | nil => cases hx
  | cons y ys =>
    show List.foldl min y ys ≤ x
    rcases List.mem_cons.mp hx with rfl | hmem
    · exact foldl_min_le ys x
    · exact foldl_min_le_mem ys x hmem y

/-! ### Claim theorems -/

/-- C1: for a 5-day trip whose forecast yields avgHigh 85, avgLow 70, no
rain and no layering need, with activities ["Beach day"], the merged
packing list includes Underwear x6, Socks x6, Breathable T-shirts x5,
Lightweight Shorts x3, Swimsuit x2, Beach Towel x1, Waterproof Phone Case
x1, Beach Bag x1, Extra Sunscreen x1, After-Sun Care x1, Passport/ID x1,
Phone + Charger x1 and Toiletry Basics x1, and contains no Umbrella. -/
theorem beach_scenario_packing_list :
    (⟨"Underwear", "Clothing", 6⟩ : PackingItem) ∈ generatePackingList 5 beachForecast ["Beach day"]
    ∧ (⟨"Socks", "Clothing", 6⟩ : PackingItem) ∈ generatePackingList 5 beachForecast ["Beach day"]
    ∧ (⟨"Breathable T-shirts", "Clothing", 5⟩ : PackingItem) ∈ generatePackingList 5 beachForecast ["Beach day"]
    ∧ (⟨"Lightweight Shorts", "Clothing", 3⟩ : PackingItem) ∈ generatePackingList 5 beachForecast ["Beach day"]
    ∧ (⟨"Swimsuit", "Clothing", 2⟩ : PackingItem) ∈ generatePackingList 5 beachForecast ["Beach day"]
    ∧ (⟨"Beach Towel", "Accessories", 1⟩ : PackingItem) ∈ generatePackingList 5 beachForecast ["Beach day"]
    ∧ (⟨"Waterproof Phone Case", "Accessories", 1⟩ : PackingItem) ∈ generatePackingList 5 beachForecast ["Beach day"]
    ∧ (⟨"Beach Bag", "Accessories", 1⟩ : PackingItem) ∈ generatePackingList 5 beachForecast ["Beach day"]
    ∧ (⟨"Extra Sunscreen", "Toiletries", 1⟩ : PackingItem) ∈ generatePackingList 5 beachForecast ["Beach day"]
    ∧ (⟨"After-Sun Care", "Toiletries", 1⟩ : PackingItem) ∈ generatePackingList 5 beachForecast ["Beach day"]
    ∧ (⟨"Passport/ID", "Documents & Money", 1⟩ : PackingItem) ∈ generatePackingList 5 beachForecast ["Beach day"]
    ∧ (⟨"Phone + Charger", "Electronics", 1⟩ : PackingItem) ∈ generatePackingList 5 beachForecast ["Beach day"]
    ∧ (⟨"Toiletry Basics", "Toiletries", 1⟩ : PackingItem) ∈ generatePackingList 5 beachForecast ["Beach day"]
    ∧ ∀ it ∈ generatePackingList 5 beachForecast ["Beach day"], it.name ≠ "Umbrella" := by
  rw [beach_scenario_eval]
  decide

/-- C2 counterexample: the merge key is the string `name + "-" + category`,
so the two distinct (name, category) pairs ("a", "b-c") and ("a-b", "c")
collide; merging one item of each yields a single entry and the pair
("a-b", "c") never appears in the output, contrary to the claim that every
(name, category) group appears exactly once with its own maximal
quantity. -/
theorem mergeItems_pair_grouping_fails :
    mergeItems [⟨"a", "b-c", 1⟩, ⟨"a-b", "c", 2⟩] = [⟨"a", "b-c", 2⟩]
    ∧ (∀ it ∈ mergeItems [(⟨"a", "b-c", 1⟩ : PackingItem), ⟨"a-b", "c", 2⟩],
        ¬(it.name = "a-b" ∧ it.category = "c")) := by
  decide

/-- C2 (amended): merge groups items by the joined string key
`name + "-" + category` (which separates any two items with the same name
and different categories, but can conflate distinct pairs whose
concatenations coincide). No two output entries share a (name, category)
pair, every input item's key is represented exactly once in the output
(no two output entries share a joined key, so colliding pairs are
conflated into a single entry), and each output entry carries the maximum
quantity among the input items with its key (not the sum), that maximum
being attained by some contributing item. -/
theorem mergeItems_key_grouping (l : List PackingItem) :
    ((mergeItems l).Pairwise fun a b => itemKey a ≠ itemKey b)
    ∧ ((mergeItems l).Pairwise fun a b => ¬(a.name = b.name ∧ a.category = b.category))
    ∧ (∀ j ∈ l, ∃ it ∈ mergeItems l, itemKey it = itemKey j)
    ∧ (∀ it ∈ mergeItems l,
        (∃ j ∈ l, itemKey j = itemKey it ∧ j.quantity = it.quantity)
        ∧ ∀ j ∈ l, itemKey j = itemKey it → j.quantity ≤ it.quantity) := by
  refine ⟨keysDistinct_mergeItems l, ?_, ?_, ?_⟩
  · exact (keysDistinct_mergeItems l).imp
      (fun hne hnc => hne (itemKey_eq_of_name_category hnc.1 hnc.2))
  · intro j hj
    obtain ⟨j', hf, _⟩ := exists_entry_ge l j hj
    obtain ⟨hmem, hkey⟩ := findByKey_mem hf
    exact ⟨j', hmem, hkey⟩
  · intro it hit
    have hf : findByKey (mergeItems l) (itemKey it) = some it :=
      mem_findByKey _ (keysDistinct_mergeItems l) it hit
    rw [findByKey_mergeItems] at hf
    have hsub : ∀ i, i ∈ keyGroup l (itemKey it) → i ∈ l ∧ itemKey i = itemKey it := by
      intro i hi
      have := List.mem_filter.mp hi
      exact ⟨this.1, by simpa using this.2⟩
    cases hg : keyGroup l (itemKey it) with
    | nil =>
      rw [hg] at hf
      exact absurd hf (by simp [groupEntry])
    | cons x g =>
      rw [hg] at hf
      simp only [groupEntry, Option.some.injEq] at hf
      have hq : it.quantity = g.foldl (fun q i => max q i.quantity) x.quantity := by
        rw [← hf]
      constructor
      · rcases foldl_qty_attained g x.quantity with heq | ⟨i, hi, heq⟩
        · obtain ⟨hxl, hxk⟩ := hsub x (hg ▸ List.mem_cons_self x g)
          exact ⟨x, hxl, hxk, by rw [hq, heq]⟩
        · obtain ⟨hil, hik⟩ := hsub i (hg ▸ List.mem_cons_of_mem x hi)
          exact ⟨i, hil, hik, by rw [hq, heq]⟩
      · intro j hj hkeyj
        have hjg : j ∈ keyGroup l (itemKey it) :=
          List.mem_filter.mpr ⟨hj, by simp [hkeyj]⟩
        rw [hg] at hjg
        rw [hq]
        rcases List.mem_cons.mp hjg with rfl | hmem
        · exact le_foldl_qty g _
        · exact mem_le_foldl_qty g j hmem _

/-- C2 witness: merging the two same-key items (A, cat, 2) and (A, cat, 5)
produces an entry for that key. -/
theorem mergeItems_key_grouping_witness :
    ∃ it ∈ mergeItems [(⟨"A", "cat", 2⟩ : PackingItem), ⟨"A", "cat", 5⟩],
      itemKey it = itemKey (⟨"A", "cat", 2⟩ : PackingItem) :=
  (mergeItems_key_grouping [⟨"A", "cat", 2⟩, ⟨"A", "cat", 5⟩]).2.2.1 ⟨"A", "cat", 2⟩ (by decide)

/-- C5: for every pair of calendar dates (and any fixed environment
timezone offset), the computed trip duration is the inclusive day count
(end - start) + 1; in particular duration(d, d) = 1 and
duration(d, d + 6) = 7. -/
theorem tripDuration_inclusive_days (ofs startDay endDay : ℤ) :
    tripDuration ofs startDay endDay = endDay - startDay + 1
    ∧ tripDuration ofs startDay startDay = 1
    ∧ tripDuration ofs startDay (startDay + 6) = 7 := by
  have hmain : ∀ e : ℤ, tripDuration ofs startDay e = e - startDay + 1 := by
    intro e
    unfold tripDuration getLocalDate
    have h1 : e * 86400000 + ofs * 60000 - (startDay * 86400000 + ofs * 60000)
        = (e - startDay) * 86400000 := by ring
    rw [h1, Int.fdiv_eq_ediv _ (by norm_num), Int.mul_ediv_cancel _ (by norm_num)]
  exact ⟨hmain endDay, by rw [hmain]; ring, by rw [hmain]; ring⟩

/-- C8: the merge step is idempotent: merging an already-merged item list
changes nothing. -/
theorem mergeItems_idempotent (x : List PackingItem) :
    mergeItems (mergeItems x) = mergeItems x :=
  mergeItems_of_keysDistinct _ (keysDistinct_mergeItems x)

/-- C3: on any non-empty forecast, isHot holds iff avgHigh > 80, isMild
iff 60 <= avgHigh <= 80, isCool iff 40 <= avgLow < 60, isCold iff
avgLow < 40; in particular avgHigh = 85 gives isHot and not isMild, and
avgHigh = 70 gives isMild and not isHot. -/
theorem weather_band_thresholds (days : List WeatherDay) (h : days ≠ []) :
    ((analyzeWeather days).isHot = true ↔ (analyzeWeather days).avgHigh > 80)
    ∧ ((analyzeWeather days).isMild = true ↔
        60 ≤ (analyzeWeather days).avgHigh ∧ (analyzeWeather days).avgHigh ≤ 80)
    ∧ ((analyzeWeather days).isCool = true ↔
        40 ≤ (analyzeWeather days).avgLow ∧ (analyzeWeather days).avgLow < 60)
    ∧ ((analyzeWeather days).isCold = true ↔ (analyzeWeather days).avgLow < 40)
    ∧ ((analyzeWeather days).avgHigh = 85 →
        (analyzeWeather days).isHot = true ∧ (analyzeWeather days).isMild = false)
    ∧ ((analyzeWeather days).avgHigh = 70 →
        (analyzeWeather days).isMild = true ∧ (analyzeWeather days).isHot = false) := by
  have hHot : (analyzeWeather days).isHot
      = decide ((analyzeWeather days).avgHigh > 80) := rfl
  have hMild : (analyzeWeather days).isMild
      = (decide ((analyzeWeather days).avgHigh ≥ 60)
          && decide ((analyzeWeather days).avgHigh ≤ 80)) := rfl
  have hCool : (analyzeWeather days).isCool
      = (decide ((analyzeWeather days).avgLow < 60)
          && decide ((analyzeWeather days).avgLow ≥ 40)) := rfl
  have hCold : (analyzeWeather days).isCold
      = decide ((analyzeWeather days).avgLow < 40) := rfl
  refine ⟨?_, ?_, ?_, ?_, ?_, ?_⟩
  · rw [hHot]; simp
  · rw [hMild]; simp [ge_iff_le]
  · rw [hCool]; simp [ge_iff_le, and_comm]
  · rw [hCold]; simp
  · intro h85
    rw [hHot, hMild, h85]
    norm_num
  · intro h70
    rw [hHot, hMild, h70]
    norm_num

/-- C3 witness: the thresholds instantiated on the concrete 85/70
forecast. -/
theorem weather_band_thresholds_witness :
    beachForecast ≠ []
    ∧ (((analyzeWeather beachForecast).isHot = true ↔ (analyzeWeather beachForecast).avgHigh > 80)
       ∧ ((analyzeWeather beachForecast).isMild = true ↔
           60 ≤ (analyzeWeather beachForecast).avgHigh ∧ (analyzeWeather beachForecast).avgHigh ≤ 80)
       ∧ ((analyzeWeather beachForecast).isCool = true ↔
           40 ≤ (analyzeWeather beachForecast).avgLow ∧ (analyzeWeather beachForecast).avgLow < 60)
       ∧ ((analyzeWeather beachForecast).isCold = true ↔ (analyzeWeather beachForecast).avgLow < 40)
       ∧ ((analyzeWeather beachForecast).avgHigh = 85 →
           (analyzeWeather beachForecast).isHot = true ∧ (analyzeWeather beachForecast).isMild = false)
       ∧ ((analyzeWeather beachForecast).avgHigh = 70 →
           (analyzeWeather beachForecast).isMild = true ∧ (analyzeWeather beachForecast).isHot = false)) :=
  ⟨by decide, weather_band_thresholds beachForecast (by decide)⟩

/-- C9: on any non-empty forecast the bands on the same statistic are
mutually exclusive: never isHot and isMild together, never isCool and
isCold together; cross-statistic combinations such as isHot with isCold do
occur (witnessed by the 85/35 forecast). -/
theorem weather_bands_mutually_exclusive (days : List WeatherDay) (h : days ≠ []) :
    ¬((analyzeWeather days).isHot = true ∧ (analyzeWeather days).isMild = true)
    ∧ ¬((analyzeWeather days).isCool = true ∧ (analyzeWeather days).isCold = true)
    ∧ ((analyzeWeather hotColdForecast).isHot = true
        ∧ (analyzeWeather hotColdForecast).isCold = true) := by
  have hHot : (analyzeWeather days).isHot
      = decide ((analyzeWeather days).avgHigh > 80) := rfl
  have hMild : (analyzeWeather days).isMild
      = (decide ((analyzeWeather days).avgHigh ≥ 60)
          && decide ((analyzeWeather days).avgHigh ≤ 80)) := rfl
  have hCool : (analyzeWeather days).isCool
      = (decide ((analyzeWeather days).avgLow < 60)
          && decide ((analyzeWeather days).avgLow ≥ 40)) := rfl
  have hCold : (analyzeWeather days).isCold
      = decide ((analyzeWeather days).avgLow < 40) := rfl
  refine ⟨?_, ?_, ?_⟩
  · rintro ⟨h1, h2⟩
    rw [hHot] at h1
    rw [hMild] at h2
    simp only [decide_eq_true_eq, Bool.and_eq_true] at h1 h2
    linarith [h1, h2.2]
  · rintro ⟨h1, h2⟩
    rw [hCool] at h1
    rw [hCold] at h2
    simp only [decide_eq_true_eq, Bool.and_eq_true, ge_iff_le] at h1 h2
    linarith [h1.2, h2]
  · rw [analyzeWeather_hotColdForecast]
    exact ⟨rfl, rfl⟩

/-- C9 witness: exclusivity instantiated on the concrete 85/70 forecast. -/
theorem weather_bands_mutually_exclusive_witness :
    beachForecast ≠ []
    ∧ (¬((analyzeWeather beachForecast).isHot = true ∧ (analyzeWeather beachForecast).isMild = true)
       ∧ ¬((analyzeWeather beachForecast).isCool = true ∧ (analyzeWeather beachForecast).isCold = true)
       ∧ ((analyzeWeather hotColdForecast).isHot = true
           ∧ (analyzeWeather hotColdForecast).isCold = true)) :=
  ⟨by decide, weather_bands_mutually_exclusive beachForecast (by decide)⟩

/-- C7: on any non-empty forecast, hasRain holds iff some day's conditions
text contains the substring "Rain"; a day with conditions "Light Rain"
turns it on, and a forecast of all-"Cloudy" days leaves it off. -/
theorem hasRain_iff_rain_substring (days : List WeatherDay) (h : days ≠ []) :
    ((analyzeWeather days).hasRain = true ↔
      ∃ d ∈ days, "Rain".toList <:+: d.conditions.toList)
    ∧ ((∃ d ∈ days, d.conditions = "Light Rain") → (analyzeWeather days).hasRain = true)
    ∧ ((∀ d ∈ days, d.conditions = "Cloudy") → (analyzeWeather days).hasRain = false) := by
  have hr : (analyzeWeather days).hasRain
      = days.any (fun d => jsIncludes d.conditions "Rain") := rfl
  refine ⟨?_, ?_, ?_⟩
  · rw [hr]
    simp [jsIncludes, List.any_eq_true]
  · rintro ⟨d, hd, hcond⟩
    rw [hr]
    exact List.any_eq_true.mpr ⟨d, hd, by rw [hcond]; decide⟩
  · intro hall
    rw [hr]
    exact List.any_eq_false.mpr (fun d hd => by rw [hall d hd]; decide)

/-- C7 witness: the rain flag instantiated on the one-day "Light Rain"
forecast. -/
theorem hasRain_iff_rain_substring_witness :
    rainForecast ≠ []
    ∧ (((analyzeWeather rainForecast).hasRain = true ↔
         ∃ d ∈ rainForecast, "Rain".toList <:+: d.conditions.toList)
       ∧ ((∃ d ∈ rainForecast, d.conditions = "Light Rain") →
           (analyzeWeather rainForecast).hasRain = true)
       ∧ ((∀ d ∈ rainForecast, d.conditions = "Cloudy") →
           (analyzeWeather rainForecast).hasRain = false)) :=
  ⟨by decide, hasRain_iff_rain_substring rainForecast (by decide)⟩

lemma mergeItems_absorb_four (e c f ea r d : List PackingItem) (h : ∀ i ∈ ea, i ∈ f) :
    mergeItems (e ++ c ++ (f ++ ea) ++ r ++ d) = mergeItems (e ++ c ++ f ++ r ++ d) := by
  have h1 : e ++ c ++ (f ++ ea) ++ r ++ d = (e ++ c ++ f) ++ (ea ++ (r ++ d)) := by
    simp [List.append_assoc]
  have h2 : e ++ c ++ f ++ r ++ d = (e ++ c ++ f) ++ (r ++ d) := by
    simp [List.append_assoc]
  rw [h1, h2]
  exact mergeItems_absorb_mid _ _ _
    (fun i hi => List.mem_append_right (e ++ c) (h i hi))

/-- C6 counterexample: the code has no gym/workout rule block, so an
activity containing "gym" and "workout" emits no items and leaves the
merged list unchanged even though tripDays >= 1, contrary to the claim
that gym/workout belongs to the matched keyword vocabulary. -/
theorem gym_activity_contributes_nothing :
    jsIncludes (jsToLower "Gym and workout") "gym" = true
    ∧ jsIncludes (jsToLower "Gym and workout") "workout" = true
    ∧ emitActivity 1 plainSignals "Gym and workout" = []
    ∧ generateMerged 1 plainSignals ["Gym and workout"] = generateMerged 1 plainSignals [] := by
  decide

/-- C6 (amended): every activity string is matched case-insensitively
against the keyword vocabulary beach/swim, hik(e), business, golf (there
is no gym/workout block): an activity emits items iff its lowercased text
contains one of these keywords, and an activity containing none of them
contributes nothing and raises no error - the generated merged list is the
same as if that activity were absent. -/
theorem activity_keyword_vocabulary (t : ℤ) (w : WeatherSignals)
    (acts : List String) (a : String) :
    (emitActivity t w a = [] ↔
      (jsIncludes (jsToLower a) "beach" = false ∧ jsIncludes (jsToLower a) "swim" = false
       ∧ jsIncludes (jsToLower a) "hik" = false ∧ jsIncludes (jsToLower a) "business" = false
       ∧ jsIncludes (jsToLower a) "golf" = false))
    ∧ (emitActivity t w a = [] →
        generateMerged t w (acts ++ [a]) = generateMerged t w acts) := by
  constructor
  · unfold emitActivity
    cases hb : jsIncludes (jsToLower a) "beach" <;>
      cases hs : jsIncludes (jsToLower a) "swim" <;>
        cases hh : jsIncludes (jsToLower a) "hik" <;>
          cases hbus : jsIncludes (jsToLower a) "business" <;>
            cases hg : jsIncludes (jsToLower a) "golf" <;>
              simp [hb, hs, hh, hbus, hg]
  · intro he
    unfold generateMerged generateItems
    have hflat : (acts ++ [a]).flatMap (emitActivity t w) = acts.flatMap (emitActivity t w) := by
      rw [List.flatMap_append]
      simp [he]
    rw [hflat]

/-- C6 witness: an activity matching no keyword ("Sightseeing") leaves the
merged output unchanged. -/
theorem activity_keyword_vocabulary_witness :
    generateMerged 3 plainSignals (["Beach day"] ++ ["Sightseeing"])
      = generateMerged 3 plainSignals ["Beach day"] :=
  (activity_keyword_vocabulary 3 plainSignals ["Beach day"] "Sightseeing").2 (by decide)

/-- C10: appending a duplicate of an activity already in the list leaves
the merged packing list unchanged, for any tripDays >= 1 and any weather
signals: the repeated activity emits identical items and the max-quantity
merge absorbs them. -/
theorem duplicate_activity_no_effect (t : ℤ) (w : WeatherSignals)
    (acts : List String) (a : String) (ht : 1 ≤ t) (ha : a ∈ acts) :
    generateMerged t w (acts ++ [a]) = generateMerged t w acts := by
  unfold generateMerged generateItems
  have hflat : (acts ++ [a]).flatMap (emitActivity t w)
      = acts.flatMap (emitActivity t w) ++ emitActivity t w a := by
    rw [List.flatMap_append]
    simp
  rw [hflat]
  exact mergeItems_absorb_four _ _ _ _ _ _
    (fun i hi => List.mem_flatMap.mpr ⟨a, ha, hi⟩)

/-- C10 witness: duplicating the "Beach day" activity of a 5-day trip
changes nothing. -/
theorem duplicate_activity_no_effect_witness :
    generateMerged 5 plainSignals (["Beach day"] ++ ["Beach day"])
      = generateMerged 5 plainSignals ["Beach day"] :=
  duplicate_activity_no_effect 5 plainSignals ["Beach day"] "Beach day" (by decide) (by decide)

/-- C4: on any non-empty forecast and tripDays >= 1, tempVariation is the
maximum daily high minus the minimum daily low (attained by actual
forecast days), needsLayering holds iff tempVariation > 20, and the
cool-or-layering block emits items iff isCool or needsLayering holds, in
which case it emits Long Sleeve Shirts x ceil(tripDays *
(2 if needsLayering else 1) * 0.5), Light Jacket x1 and Warm Sweater x
ceil(tripDays / 3). -/
theorem variation_layering_cool_rule (days : List WeatherDay) (t : ℤ)
    (h : days ≠ []) (ht : 1 ≤ t) :
    (∃ dh ∈ days, ∃ dl ∈ days,
        (analyzeWeather days).tempVariation = dh.high - dl.low
        ∧ (∀ d ∈ days, d.high ≤ dh.high) ∧ (∀ d ∈ days, dl.low ≤ d.low))
    ∧ ((analyzeWeather days).needsLayering = true ↔ (analyzeWeather days).tempVariation > 20)
    ∧ ((analyzeWeather days).isCool = true ∨ (analyzeWeather days).needsLayering = true →
        coolLayerItems t (analyzeWeather days) =
          [⟨"Long Sleeve Shirts", "Clothing",
             Int.ceil ((t : ℚ) * (if (analyzeWeather days).needsLayering = true then 2 else 1) * (1/2))⟩,
           ⟨"Light Jacket", "Clothing", 1⟩,
           ⟨"Warm Sweater", "Clothing", Int.ceil ((t : ℚ) / 3)⟩])
    ∧ (¬((analyzeWeather days).isCool = true ∨ (analyzeWeather days).needsLayering = true) →
        coolLayerItems t (analyzeWeather days) = []) := by
  have hv : (analyzeWeather days).tempVariation
      = listMax (days.map (·.high)) - listMin (days.map (·.low)) := rfl
  have hl : (analyzeWeather days).needsLayering
      = decide ((analyzeWeather days).tempVariation > 20) := rfl
  refine ⟨?_, ?_, ?_, ?_⟩
  · have hmh : days.map (·.high) ≠ [] := by
      intro hc
      exact h (List.map_eq_nil.mp hc)
    have hml : days.map (·.low) ≠ [] := by
      intro hc
      exact h (List.map_eq_nil.mp hc)
    obtain ⟨dh, hdh, hdh2⟩ := List.mem_map.mp (listMax_mem _ hmh)
    obtain ⟨dl, hdl, hdl2⟩ := List.mem_map.mp (listMin_mem _ hml)
    refine ⟨dh, hdh, dl, hdl, ?_, ?_, ?_⟩
    · rw [hv, hdh2, hdl2]
    · intro d hd
      rw [hdh2]
      exact le_listMax _ _ (List.mem_map_of_mem _ hd)
    · intro d hd
      rw [hdl2]
      exact listMin_le _ _ (List.mem_map_of_mem _ hd)
  · rw [hl]; simp
  · intro hc
    have hcb : ((analyzeWeather days).isCool || (analyzeWeather days).needsLayering) = true := by
      rcases hc with hc | hc <;> simp [hc]
    unfold coolLayerItems
    rw [if_pos hcb]
    by_cases hn : (analyzeWeather days).needsLayering = true
    · norm_num [hn, mathCeil]
    · norm_num [hn, mathCeil]
  · intro hc
    push_neg at hc
    have hcb : ((analyzeWeather days).isCool || (analyzeWeather days).needsLayering) = false := by
      simp [hc.1, hc.2]
    unfold coolLayerItems
    rw [if_neg]
    rw [hcb]
    simp

/-- C4 witness: the rule instantiated on the one-day 55/45 cool forecast
with a 5-day trip length. -/
theorem variation_layering_cool_rule_witness :
    coolForecast ≠ [] ∧ (1 : ℤ) ≤ 5
    ∧ ((∃ dh ∈ coolForecast, ∃ dl ∈ coolForecast,
          (analyzeWeather coolForecast).tempVariation = dh.high - dl.low
          ∧ (∀ d ∈ coolForecast, d.high ≤ dh.high) ∧ (∀ d ∈ coolForecast, dl.low ≤ d.low))
       ∧ ((analyzeWeather coolForecast).needsLayering = true ↔
           (analyzeWeather coolForecast).tempVariation > 20)
       ∧ ((analyzeWeather coolForecast).isCool = true
            ∨ (analyzeWeather coolForecast).needsLayering = true →
          coolLayerItems 5 (analyzeWeather coolForecast) =
            [⟨"Long Sleeve Shirts", "Clothing",
               Int.ceil ((5 : ℚ) * (if (analyzeWeather coolForecast).needsLayering = true then 2 else 1) * (1/2))⟩,
             ⟨"Light Jacket", "Clothing", 1⟩,
             ⟨"Warm Sweater", "Clothing", Int.ceil ((5 : ℚ) / 3)⟩])
       ∧ (¬((analyzeWeather coolForecast).isCool = true
            ∨ (analyzeWeather coolForecast).needsLayering = true) →
          coolLayerItems 5 (analyzeWeather coolForecast) = [])) :=
  ⟨by decide, by decide, variation_layering_cool_rule coolForecast 5 (by decide) (by decide)⟩
